import Mathlib

/-!
Verification development for the LLMetrik / GrantSpider question-answering
system: the orchestration core (retrieval, synthesis, citation, session
memory, orchestrator) and the web front-end helpers.  The orchestration core
is not shipped in this repository snapshot (only its README, install script
and web front-end are), so its operations are modelled from the spec; the
front-end functions are embedded from the JavaScript sources.
-/

namespace LLMetrik

/-- Modelled from the spec (section 3): a document chunk held by the vector
store, immutable after ingestion. -/
structure Chunk where
  chunk_id : Nat
  source_file : String
  page_number : Nat
  text : String
deriving DecidableEq, Repr

/-- Modelled from the spec (section 3): a retrieved chunk reference carrying
a relevance score.  Scores are modelled as rationals. -/
structure Candidate where
  chunk : Chunk
  score : ℚ
deriving DecidableEq, Repr

/-- Modelled from the spec (section 4.4): a citation record. -/
structure Citation where
  source_file : String
  page_number : Nat
  relevance_score : ℚ
deriving DecidableEq, Repr

/-- Modelled from the spec (section 3): one query/answer exchange recorded in
a session history. -/
structure Turn where
  query_text : String
  final_answer : String
  citations : List Citation
  timestamp : Nat
deriving DecidableEq, Repr

/-- Session memory, keyed by session id (spec section 4.5); the missing
session-memory module is modelled from the spec as an association list. -/
abbrev Memory := List (String × List Turn)

/-- Bound on the per-session history; the repository README pins
MAX_CHAT_HISTORY to 10. -/
def MAX_HISTORY : Nat := 10

/-- Modelled from the spec (section 4.5): append a turn to a bounded turn
list; if adding the turn would exceed the bound, the oldest turn is evicted
first (FIFO), never the newest. -/
def pushBounded (maxH : Nat) (ts : List Turn) (t : Turn) : List Turn :=
  if ts.length < maxH then ts ++ [t] else ts.tail ++ [t]

/-- Modelled from the spec (section 4.5): append_turn never raises for new
session ids, it implicitly creates the session; bound enforcement happens
inside append_turn. -/
def append_turn (maxH : Nat) : Memory → String → Turn → Memory
  | [], sid, t => [(sid, [t])]
  | (s, ts) :: rest, sid, t =>
    if s == sid then (s, pushBounded maxH ts t) :: rest
    else (s, ts) :: append_turn maxH rest sid t

/-- Modelled from the spec (section 4.5): the recent history consumed by
Synthesis, most recent first, at most maxTurns entries. -/
def recent_history (mem : Memory) (sid : String) (maxTurns : Nat) : List Turn :=
  ((List.lookup sid mem).getD []).reverse.take maxTurns

/-- Modelled from the spec (section 4.5): clear a session. -/
def clearSession (mem : Memory) (sid : String) : Memory :=
  mem.filter (fun p => !(p.1 == sid))

/-- Replay a sequence of append_turn calls starting from an empty memory. -/
def runCalls (maxH : Nat) (calls : List (String × Turn)) : Memory :=
  calls.foldl (fun m c => append_turn maxH m c.1 c.2) []

/-- Every turn list stored in the memory respects the bound. -/
def BoundedMem (maxH : Nat) (mem : Memory) : Prop :=
  ∀ p ∈ mem, p.2.length ≤ maxH

/-- Modelled from the spec (section 6): recognized configuration options. -/
structure Config where
  top_k : Nat
  similarity_threshold : ℚ
  max_history : Nat
  stage_timeout_ms : Nat
  max_retries : Nat
deriving DecidableEq, Repr

/-- Modelled from the spec (section 4.2, step 5): the deterministic candidate
order, descending by score with ties broken by ascending chunk id. -/
def candBefore (a b : Candidate) : Prop :=
  b.score < a.score ∨ (a.score = b.score ∧ a.chunk.chunk_id ≤ b.chunk.chunk_id)

instance : DecidableRel candBefore := fun a b => by
  unfold candBefore; exact inferInstance

instance : IsTotal Candidate candBefore := by
  constructor
  intro a b
  rcases lt_trichotomy a.score b.score with h | h | h
  · exact Or.inr (Or.inl h)
  · rcases Nat.le_total a.chunk.chunk_id b.chunk.chunk_id with hc | hc
    · exact Or.inl (Or.inr ⟨h, hc⟩)
    · exact Or.inr (Or.inr ⟨h.symm, hc⟩)
  · exact Or.inl (Or.inl h)

instance : IsTrans Candidate candBefore := by
  constructor
  intro a b c hab hbc
  rcases hab with h1 | h1 <;> rcases hbc with h2 | h2
  · exact Or.inl (h2.trans h1)
  · exact Or.inl (h2.1 ▸ h1)
  · exact Or.inl (lt_of_lt_of_eq h2 h1.1.symm)
  · exact Or.inr ⟨h1.1.trans h2.1, h1.2.trans h2.2⟩

/-- Modelled from the spec (section 4.2, step 4): walk the candidate list,
dropping a candidate when an already-kept candidate from the same source file
is detected as a near-duplicate of it.  The list is already ordered by
candBefore, so the kept chunk of each source group is its highest-scoring
one. -/
def dedupBySourceAux (nearDup : Candidate → Candidate → Bool)
    (seen : List Candidate) : List Candidate → List Candidate
  | [] => []
  | c :: rest =>
    if seen.any
        (fun s => s.chunk.source_file == c.chunk.source_file && nearDup s c) then
      dedupBySourceAux nearDup seen rest
    else c :: dedupBySourceAux nearDup (c :: seen) rest

/-- Modelled from the spec (section 4.2, step 4): deduplicate by source file,
retaining for each source only its highest-scoring chunk when near-duplicate
text is detected. -/
def dedupBySource (nearDup : Candidate → Candidate → Bool)
    (l : List Candidate) : List Candidate :=
  dedupBySourceAux nearDup [] l

/-- Number of distinct source files among a candidate list. -/
def distinctSourceCount (l : List Candidate) : Nat :=
  (l.map (fun c => c.chunk.source_file)).dedup.length

/-- Modelled from the spec (section 4.2, steps 3 to 5): discard store results
below the similarity threshold, deduplicate by source unless the minimum
distinct-source count has not been reached, and order the final list
descending by score with ties broken by ascending chunk id. -/
def selectCandidates (threshold : ℚ) (nearDup : Candidate → Candidate → Bool)
    (minDistinctSources : Nat) (raw : List Candidate) : List Candidate :=
  let surviving := raw.filter (fun c => threshold ≤ c.score)
  let sorted := List.insertionSort candBefore surviving
  if distinctSourceCount surviving < minDistinctSources then sorted
  else dedupBySource nearDup sorted

/-- Scenario chunk scoring 0.92 in the spec retrieval example. -/
def scenChunk1 : Chunk := ⟨1, "doc1.pdf", 2, "the maximum grant amount is 60000 euro"⟩

/-- Scenario chunk scoring 0.81 in the spec retrieval example. -/
def scenChunk2 : Chunk := ⟨2, "doc2.pdf", 5, "grant amounts vary by call"⟩

/-- Scenario chunk scoring 0.40 in the spec retrieval example. -/
def scenChunk3 : Chunk := ⟨3, "doc3.pdf", 9, "unrelated administrative text"⟩

/-- Scenario candidate with score 0.92. -/
def scenCand1 : Candidate := ⟨scenChunk1, mkRat 92 100⟩

/-- Scenario candidate with score 0.81. -/
def scenCand2 : Candidate := ⟨scenChunk2, mkRat 81 100⟩

/-- Scenario candidate with score 0.40. -/
def scenCand3 : Candidate := ⟨scenChunk3, mkRat 40 100⟩

/-- Store answer for the spec retrieval scenario: three chunks scoring
0.92, 0.81 and 0.40. -/
def storeScenario : List Candidate := [scenCand1, scenCand2, scenCand3]

/-- Modelled from the spec (section 4.3): the canonical insufficient
information response produced when candidates is empty. -/
def insufficientInfoResponse : String :=
  "The provided documents do not contain sufficient information to answer this question."

/-- Characters used by the modelled language detector. -/
def turkishMarkers : List Char := ['ç', 'ğ', 'ı', 'ö', 'ş', 'ü']

/-- Modelled from the spec (section 4.3): the language of the query is
detected from the text itself, no external language tag. -/
def detectLanguage (q : String) : String :=
  if q.data.any (fun c => turkishMarkers.contains c) then "tr" else "en"

/-- Modelled from the spec (section 4.4): the citation record emitted for a
candidate. -/
def citationOf (c : Candidate) : Citation :=
  ⟨c.chunk.source_file, c.chunk.page_number, c.score⟩

/-- Modelled from the spec (section 4.4): one citation record is emitted for
every candidate passed into Synthesis, before deduplication. -/
def rawCitations (cands : List Candidate) : List Citation :=
  cands.map citationOf

/-- Two citations share the same (source_file, page_number) key. -/
def sameCiteKey (a b : Citation) : Bool :=
  a.source_file == b.source_file && a.page_number == b.page_number

/-- Modelled from the spec (section 4.4): drop a citation when a kept one
already carries the same (source_file, page_number) key. -/
def dedupCitationsAux (seen : List Citation) : List Citation → List Citation
  | [] => []
  | c :: rest =>
    if seen.any (fun s => sameCiteKey s c) then dedupCitationsAux seen rest
    else c :: dedupCitationsAux (c :: seen) rest

/-- Modelled from the spec (section 4.4): deduplicate citations sharing the
same (source_file, page_number), preserving the relative order. -/
def dedupCitations (l : List Citation) : List Citation :=
  dedupCitationsAux [] l

/-- Modelled from the spec (section 4.4): the citation list attached to a
draft answer. -/
def assembleCitations (cands : List Candidate) : List Citation :=
  dedupCitations (rawCitations cands)

/-- Readable rendering of one citation. -/
def renderCitation (c : Citation) : String :=
  c.source_file ++ " p." ++ toString c.page_number

/-- Modelled from the spec (section 4.4): final answer is the draft answer
plus the ordered citation list. -/
def composeFinal (draft : String) (cits : List Citation) : String :=
  if cits.isEmpty then draft
  else draft ++ " Sources: " ++ String.intercalate "; " (cits.map renderCitation)

/-- External calls the orchestrator issues, recorded in a trace. -/
inductive ECall where
  | embedCall (attempt : Nat)
  | storeCall (attempt : Nat)
  | llmCall (attempt : Nat)
deriving DecidableEq, Repr

/-- Modelled from the spec (sections 2 and 6): the external collaborators.
Providers are attempt-indexed so transient failures can be modelled; none
means a timeout or transient unavailability on that attempt. -/
structure Env where
  embed : Nat → Option (List ℚ)
  store : List ℚ → Nat → Option (List Candidate)
  llm : String → Nat → Option String
  nearDup : Candidate → Candidate → Bool
  minDistinctSources : Nat
  inputBudget : Nat

/-- Modelled from the spec (section 5): bounded attempts of a fallible
operation; fuel is the total number of attempts allowed. -/
def withRetry {α : Type} (f : Nat → Option α × List ECall) :
    Nat → Nat → Option α × List ECall
  | _, 0 => (none, [])
  | k, fuel + 1 =>
    match f k with
    | (some a, tr) => (some a, tr)
    | (none, tr) =>
      let r := withRetry f (k + 1) fuel
      (r.1, tr ++ r.2)

/-- Modelled from the spec (section 4.2): one retrieval attempt obtains a
query embedding, queries the store top-k and applies the candidate-selection
policy. -/
def attemptRetrieve (env : Env) (cfg : Config) (k : Nat) :
    Option (List Candidate) × List ECall :=
  match env.embed k with
  | none => (none, [ECall.embedCall k])
  | some e =>
    match env.store e k with
    | none => (none, [ECall.embedCall k, ECall.storeCall k])
    | some raw =>
      (some (selectCandidates cfg.similarity_threshold env.nearDup
          env.minDistinctSources (raw.take cfg.top_k)),
        [ECall.embedCall k, ECall.storeCall k])

/-- Modelled from the spec (section 4.3): the context window is built from
the candidates, truncated to the provider input budget, preferring
higher-scored candidates, which come first. -/
def contextWindow (budget : Nat) : List Candidate → List Candidate
  | [] => []
  | c :: rest =>
    if c.chunk.text.length ≤ budget then
      c :: contextWindow (budget - c.chunk.text.length) rest
    else []

/-- Modelled from the spec (section 4.3): the prompt presented to the LLM
provider, built from the recent history, the context window and the query. -/
def buildPrompt (q : String) (window : List Candidate) (history : List Turn) : String :=
  String.intercalate " " (history.map (fun t => t.query_text ++ " " ++ t.final_answer))
    ++ " " ++ String.intercalate " " (window.map (fun c => c.chunk.text))
    ++ " " ++ q

/-- Modelled from the spec (section 4.3): one synthesis attempt invokes the
LLM provider once. -/
def attemptSynthesize (env : Env) (prompt : String) (k : Nat) :
    Option String × List ECall :=
  match env.llm prompt k with
  | none => (none, [ECall.llmCall k])
  | some text => (some text, [ECall.llmCall k])

/-- Modelled from the spec (section 4.1): pipeline states of the
orchestrator state machine. -/
inductive Phase where
  | INIT
  | RETRIEVING
  | SYNTHESIZING
  | CITING
  | DONE
  | FAILED
deriving DecidableEq, Repr

/-- Modelled from the spec (section 3): the per-query completion flags,
monotonically transitioning false to true. -/
structure Flags where
  retrieved : Bool
  answered : Bool
  cited : Bool
deriving DecidableEq, Repr

/-- Modelled from the spec (section 3): the per-query state owned by the
orchestrator. -/
structure QState where
  session_id : String
  query_text : String
  detected_language : Option String
  candidates : Option (List Candidate)
  draft_answer : Option String
  final_answer : Option String
  citations : Option (List Citation)
  flags : Flags
  phase : Phase
  error : Option String
deriving DecidableEq, Repr

/-- Modelled from the spec (section 4.1): the fresh per-query state created
at request entry. -/
def initState (sid q : String) : QState :=
  { session_id := sid
    query_text := q
    detected_language := none
    candidates := none
    draft_answer := none
    final_answer := none
    citations := none
    flags := ⟨false, false, false⟩
    phase := Phase.INIT
    error := none }

/-- Modelled from the spec (sections 4.1 and 4.2): the retrieval stage; it is
skipped when its flag is already set, otherwise it runs with bounded
retries, on success setting candidates and the retrieved flag, on exhaustion
failing while preserving the state populated so far. -/
def stageRetrieve (env : Env) (cfg : Config) (st : QState) :
    QState × List ECall :=
  if st.flags.retrieved then ({ st with phase := Phase.SYNTHESIZING }, [])
  else
    match withRetry (attemptRetrieve env cfg) 0 (cfg.max_retries + 1) with
    | (some cands, tr) =>
      ({ st with candidates := some cands
                 flags := { st.flags with retrieved := true }
                 phase := Phase.SYNTHESIZING }, tr)
    | (none, tr) =>
      ({ st with phase := Phase.FAILED
                 error := some "retrieval failed after retries" }, tr)

/-- Modelled from the spec (sections 4.1 and 4.3): the synthesis stage; it is
skipped when its flag is already set; with an empty candidate list it
produces the canonical insufficient information response without invoking
the provider; otherwise it invokes the provider with bounded retries. -/
def stageSynthesize (env : Env) (cfg : Config) (history : List Turn)
    (st : QState) : QState × List ECall :=
  if st.flags.answered then ({ st with phase := Phase.CITING }, [])
  else
    match st.candidates with
    | none =>
      ({ st with phase := Phase.FAILED
                 error := some "malformed state: synthesis before retrieval" }, [])
    | some [] =>
      ({ st with draft_answer := some insufficientInfoResponse
                 detected_language := some (detectLanguage st.query_text)
                 flags := { st.flags with answered := true }
                 phase := Phase.CITING }, [])
    | some cands =>
        match withRetry
            (attemptSynthesize env
              (buildPrompt st.query_text (contextWindow env.inputBudget cands) history))
            0 (cfg.max_retries + 1) with
        | (some draft, tr) =>
          ({ st with draft_answer := some draft
                     detected_language := some (detectLanguage st.query_text)
                     flags := { st.flags with answered := true }
                     phase := Phase.CITING }, tr)
        | (none, tr) =>
          ({ st with phase := Phase.FAILED
                     error := some "synthesis failed after retries" }, tr)

/-- Modelled from the spec (sections 4.1 and 4.4): the citation stage; it is
skipped when its flag is already set; it performs no external calls and
fails only on malformed input. -/
def stageCite (st : QState) : QState × List ECall :=
  if st.flags.cited then ({ st with phase := Phase.DONE }, [])
  else
    match st.draft_answer, st.candidates with
    | some draft, some cands =>
      ({ st with citations := some (assembleCitations cands)
                 final_answer := some (composeFinal draft (assembleCitations cands))
                 flags := { st.flags with cited := true }
                 phase := Phase.DONE }, [])
    | _, _ =>
      ({ st with phase := Phase.FAILED
                 error := some "malformed state: citation before synthesis" }, [])

/-- Modelled from the spec (section 4.1): drive the state through
retrieval, synthesis and citation in order, stopping at the first failed
stage, and collect the trace of external calls. -/
def runPipeline (env : Env) (cfg : Config) (history : List Turn)
    (st : QState) : QState × List ECall :=
  let r1 := stageRetrieve env cfg { st with phase := Phase.RETRIEVING }
  if r1.1.phase = Phase.FAILED then r1
  else
    let r2 := stageSynthesize env cfg history r1.1
    if r2.1.phase = Phase.FAILED then (r2.1, r1.2 ++ r2.2)
    else
      let r3 := stageCite r2.1
      (r3.1, r1.2 ++ r2.2 ++ r3.2)

/-- Modelled from the spec (section 6): the caller-facing status values. -/
inductive Status where
  | ok
  | degraded
  | error
deriving DecidableEq, Repr

/-- Modelled from the spec (section 6): the structured result the caller
always receives. -/
structure AskResult where
  final_answer : String
  citations : List Citation
  detected_language : String
  status : Status
deriving DecidableEq, Repr

/-- Canned answer accompanying a degraded result. -/
def degradedAnswer : String :=
  "The request could not be completed; partial supporting passages were found."

/-- Canned answer accompanying an error result. -/
def errorAnswer : String :=
  "The request could not be completed."

/-- Modelled from the spec (sections 4.1, 6 and 7): the caller-facing ask
operation; it always returns a structured result, returning degraded exactly
for a failed pipeline that still salvaged a nonempty candidate list, and on
success appends a turn to the session memory. -/
def ask (env : Env) (cfg : Config) (mem : Memory) (sid q : String)
    (now : Nat) : AskResult × Memory :=
  let hist := recent_history mem sid cfg.max_history
  let r := runPipeline env cfg hist (initState sid q)
  let st := r.1
  if st.phase = Phase.DONE then
    let fa := st.final_answer.getD ""
    let cits := st.citations.getD []
    ({ final_answer := fa
       citations := cits
       detected_language := st.detected_language.getD ""
       status := Status.ok },
     append_turn cfg.max_history mem sid ⟨q, fa, cits, now⟩)
  else
    match st.candidates with
    | some (c :: cs) =>
      ({ final_answer := degradedAnswer
         citations := assembleCitations (c :: cs)
         detected_language := st.detected_language.getD ""
         status := Status.degraded }, mem)
    | _ =>
      ({ final_answer := errorAnswer
         citations := []
         detected_language := st.detected_language.getD ""
         status := Status.error }, mem)

/-- Calls owned by the retrieval stage: embedding and store queries. -/
def isRetrievalCall : ECall → Bool
  | ECall.embedCall _ => true
  | ECall.storeCall _ => true
  | ECall.llmCall _ => false

/-- Embedding-provider calls. -/
def isEmbedCall : ECall → Bool
  | ECall.embedCall _ => true
  | _ => false

/-- Pointwise ordering of the completion flags: a flag set in the first
state is still set in the second. -/
def flagsLe (a b : Flags) : Prop :=
  (a.retrieved = true → b.retrieved = true) ∧
  (a.answered = true → b.answered = true) ∧
  (a.cited = true → b.cited = true)

/-- Configuration used by concrete scenarios: top_k 8, threshold 0.5,
max_history 10, stage timeout 30000 ms, max_retries 2. -/
def scenarioConfig : Config :=
  { top_k := 8
    similarity_threshold := mkRat 1 2
    max_history := 10
    stage_timeout_ms := 30000
    max_retries := 2 }

/-- Environment whose embedding provider times out on attempts 0 and 1 and
succeeds on attempt 2. -/
def flakyEnv : Env :=
  { embed := fun k => if k < 2 then none else some [1]
    store := fun _ _ => some storeScenario
    llm := fun _ _ => some "draft answer"
    nearDup := fun _ _ => false
    minDistinctSources := 0
    inputBudget := 1000 }

/-- Environment whose LLM provider fails on every attempt, exhausting
retries during synthesis. -/
def exhaustedEnv : Env :=
  { embed := fun _ => some [1]
    store := fun _ _ => some storeScenario
    llm := fun _ _ => none
    nearDup := fun _ _ => false
    minDistinctSources := 0
    inputBudget := 1000 }

/-- Environment whose store holds nothing relevant: retrieval succeeds with
an empty candidate list. -/
def emptyStoreEnv : Env :=
  { embed := fun _ => some [1]
    store := fun _ _ => some []
    llm := fun _ _ => some "text"
    nearDup := fun _ _ => false
    minDistinctSources := 0
    inputBudget := 1000 }

/-- State of a retried request whose retrieval stage already completed. -/
def preRetrievedState : QState :=
  { initState "s" "q" with
      candidates := some [scenCand1]
      flags := ⟨true, false, false⟩ }

/-- Outcome of the fetch call issued by handleSendMessage: a successful JSON
answer, an answer with success false, or a thrown network error. -/
inductive FetchResult where
  | success (response : String) (sources : List String) (timestamp : Option Nat)
  | apiError (err : String)
  | networkError
deriving DecidableEq, Repr

/-- Observable effect of one handleSendMessage invocation: the chat messages
appended (type, content) in order, and whether the HTTP request was sent. -/
structure SendEffects where
  appendedMessages : List (String × String)
  requestSent : Bool
deriving DecidableEq, Repr

/-- Character-level trim mirroring the JavaScript String.prototype.trim. -/
def jsTrim (s : String) : String :=
  String.mk
    (((s.data.dropWhile (fun c => c.isWhitespace)).reverse.dropWhile
        (fun c => c.isWhitespace)).reverse)

/-- Embedded from the web interface script (handleSendMessage): trim the
input; return early when the message is empty or a request is in flight;
return early with a warning when the system is not ready; otherwise append
the user message, send the request, and append the assistant answer or an
error message. -/
def handleSendMessage (inputValue : String) (isLoading systemReady : Bool)
    (fetchResult : FetchResult) : SendEffects :=
  let message := jsTrim inputValue
  if message.isEmpty || isLoading then ⟨[], false⟩
  else if !systemReady then ⟨[], false⟩
  else
    match fetchResult with
    | FetchResult.success resp _ _ =>
      ⟨[("user", message), ("assistant", resp)], true⟩
    | FetchResult.apiError err =>
      ⟨[("user", message), ("assistant", "Error: " ++ err)], true⟩
    | FetchResult.networkError =>
      ⟨[("user", message), ("assistant", "Connection error. Please try again.")],
        true⟩

/-- Number of user-typed messages in an appended-message list. -/
def countUserMessages (l : List (String × String)) : Nat :=
  l.countP (fun m => m.1 == "user")

/-- Content inserted into a DOM node: inert text or parsed HTML. -/
inductive NodeContent where
  | text (s : String)
  | html (s : String)
deriving DecidableEq, Repr

/-- One rendered source item: its displayed 1-based number and its label. -/
structure SourceItem where
  number : Nat
  label : String
deriving DecidableEq, Repr

/-- The DOM structure produced for one chat message. -/
structure MessageDom where
  cssClass : String
  body : NodeContent
  sourcesSection : Option (List SourceItem)
  timestamp : Option Nat
deriving DecidableEq, Repr

/-- Numbering of the rendered source items, mirroring the forEach loop that
displays index + 1 next to each source. -/
def numberSources (n : Nat) : List String → List SourceItem
  | [] => []
  | s :: rest => ⟨n, s⟩ :: numberSources (n + 1) rest

/-- Embedded from the web interface script (addMessageToChat): the message
body is inserted with textContent; a sources section is built only for
assistant messages with a nonempty sources array, one numbered item per
source in input order; a timestamp line is added when present. -/
def addMessageToChat (type content : String) (sources : Option (List String))
    (timestamp : Option Nat) : MessageDom :=
  { cssClass := "message message-" ++ type
    body := NodeContent.text content
    sourcesSection :=
      if type == "assistant" then
        match sources with
        | some ss => if ss.length > 0 then some (numberSources 1 ss) else none
        | none => none
      else none
    timestamp := timestamp }

/-- Prefix test on character lists, mirroring indexOf(nameEQ) being 0. -/
def startsWithChars : List Char → List Char → Bool
  | _, [] => true
  | [], _ :: _ => false
  | c :: cs, p :: ps => c == p && startsWithChars cs ps

/-- Split a character list on semicolons, mirroring split(';'). -/
def splitSemiAux (cur : List Char) : List Char → List String
  | [] => [String.mk cur.reverse]
  | c :: rest =>
    if c == ';' then String.mk cur.reverse :: splitSemiAux [] rest
    else splitSemiAux (c :: cur) rest

/-- Split a cookie string on semicolons, mirroring document.cookie.split. -/
def splitSemi (s : String) : List String := splitSemiAux [] s.data

/-- The cookie string split on semicolons with leading spaces stripped,
mirroring the loop body of getCookie. -/
def parsedEntries (cookieString : String) : List String :=
  (splitSemi cookieString).map
    (fun c => String.mk (c.data.dropWhile (fun ch => ch == ' ')))

/-- String prefix test used by getCookie. -/
def strStartsWith (s p : String) : Bool := startsWithChars s.data p.data

/-- Drop the first n characters, mirroring substring(n, length). -/
def strDropChars (s : String) (n : Nat) : String := String.mk (s.data.drop n)

/-- Embedded from the web interface script (getCookie): split document.cookie
on semicolons, strip leading spaces, and return the value of the first entry
starting with name=, or null when none does. -/
def getCookie (cookieString name : String) : Option String :=
  match (parsedEntries cookieString).find?
      (fun c => strStartsWith c (name ++ "=")) with
  | some c => some (strDropChars c (name ++ "=").length)
  | none => none

/-- Embedded from the web interface script (initializeMemoryPanel): reuse the
session_id cookie when present and truthy, otherwise generate and persist a
fresh identifier; the boolean records whether a new cookie was set. -/
def initializeMemoryPanel (cookieString freshId : String) : String × Bool :=
  match getCookie cookieString "session_id" with
  | some v => if v.isEmpty then (freshId, true) else (v, false)
  | none => (freshId, true)

/-- Helper turn used by concrete witnesses. -/
def turnA : Turn := ⟨"q", "a", [], 0⟩

/-- Helper memory holding one session already at the MAX_HISTORY bound. -/
def memAtBound : Memory := [("s", List.replicate MAX_HISTORY turnA)]

lemma pushBounded_length_le (maxH : Nat) (hpos : 0 < maxH) (ts : List Turn)
    (t : Turn) (h : ts.length ≤ maxH) : (pushBounded maxH ts t).length ≤ maxH := by
  unfold pushBounded
  split
  · rename_i hlt
    simp only [List.length_append, List.length_cons, List.length_nil]
    omega
  · rename_i hlt
    have hlen : ts.length = maxH := le_antisymm h (Nat.le_of_not_lt hlt)
    have htail : ts.tail.length = ts.length - 1 := List.length_tail ts
    simp only [List.length_append, List.length_cons, List.length_nil, htail]
    omega

lemma boundedMem_nil (maxH : Nat) : BoundedMem maxH [] := by
  intro p hp; cases hp

lemma append_turn_bounded (maxH : Nat) (hpos : 0 < maxH) :
    ∀ (mem : Memory) (sid : String) (t : Turn),
      BoundedMem maxH mem → BoundedMem maxH (append_turn maxH mem sid t)
  | [], sid, t, _ => by
    intro p hp
    simp only [append_turn, List.mem_singleton] at hp
    subst hp; simpa using hpos
  | (s, ts) :: rest, sid, t, hb => by
    intro p hp
    simp only [append_turn] at hp
    by_cases hs : (s == sid) = true
    · rw [if_pos hs] at hp
      rcases List.mem_cons.mp hp with h | h
      · subst h
        exact pushBounded_length_le maxH hpos ts t (hb (s, ts) (List.mem_cons_self _ _))
      · exact hb p (List.mem_cons_of_mem _ h)
    · rw [if_neg hs] at hp
      rcases List.mem_cons.mp hp with h | h
      · subst h; exact hb (s, ts) (List.mem_cons_self _ _)
      · have hbrest : BoundedMem maxH rest := fun q hq => hb q (List.mem_cons_of_mem _ hq)
        exact append_turn_bounded maxH hpos rest sid t hbrest p h

lemma runCalls_bounded (maxH : Nat) (hpos : 0 < maxH) (calls : List (String × Turn)) :
    BoundedMem maxH (runCalls maxH calls) := by
  have main : ∀ (cs : List (String × Turn)) (m : Memory), BoundedMem maxH m →
      BoundedMem maxH (cs.foldl (fun m c => append_turn maxH m c.1 c.2) m) := by
    intro cs
    induction cs with
    | nil => intro m hm; simpa using hm
    | cons c cs ih =>
      intro m hm
      exact ih _ (append_turn_bounded maxH hpos m c.1 c.2 hm)
  exact main calls [] (boundedMem_nil maxH)

lemma lookup_mem_of_eq_some {mem : Memory} {sid : String} {ts : List Turn}
    (h : List.lookup sid mem = some ts) : (sid, ts) ∈ mem := by
  induction mem with
  | nil => simp [List.lookup] at h
  | cons p rest ih =>
    obtain ⟨k, v⟩ := p
    by_cases hk : (sid == k) = true
    · simp only [List.lookup, hk] at h
      have hv : v = ts := by injection h
      have hks : sid = k := by simpa using hk
      subst hks; subst hv
      exact List.mem_cons_self _ _
    · have hk' : (sid == k) = false := by simpa using hk
      simp only [List.lookup, hk'] at h
      exact List.mem_cons_of_mem _ (ih h)

lemma lookup_append_turn_self (maxH : Nat) :
    ∀ (mem : Memory) (sid : String) (t : Turn),
      List.lookup sid (append_turn maxH mem sid t) =
        some (match List.lookup sid mem with
              | none => [t]
              | some ts => pushBounded maxH ts t)
  | [], sid, t => by simp [append_turn, List.lookup]
  | (s, ts) :: rest, sid, t => by
    simp only [append_turn]
    by_cases hs : (s == sid) = true
    · have hseq : s = sid := by simpa using hs
      subst hseq
      simp [List.lookup]
    · have hne : s ≠ sid := by simpa using hs
      have hne2 : (sid == s) = false := beq_eq_false_iff_ne.mpr (Ne.symm hne)
      rw [if_neg hs]
      simp only [List.lookup, hne2]
      exact lookup_append_turn_self maxH rest sid t

lemma dedupBySourceAux_sublist (nearDup : Candidate → Candidate → Bool)
    (l : List Candidate) : ∀ seen,
    List.Sublist (dedupBySourceAux nearDup seen l) l := by
  induction l with
  | nil => intro seen; simp [dedupBySourceAux]
  | cons c rest ih =>
    intro seen
    rw [dedupBySourceAux]
    split
    · exact (ih seen).cons c
    · exact (ih (c :: seen)).cons₂ c

lemma dedupBySource_sublist (nearDup : Candidate → Candidate → Bool)
    (l : List Candidate) : List.Sublist (dedupBySource nearDup l) l :=
  dedupBySourceAux_sublist nearDup l []

lemma selectCandidates_sublist_sorted (threshold : ℚ)
    (nearDup : Candidate → Candidate → Bool) (minDS : Nat)
    (raw : List Candidate) :
    List.Sublist (selectCandidates threshold nearDup minDS raw)
      (List.insertionSort candBefore (raw.filter (fun c => threshold ≤ c.score))) := by
  simp only [selectCandidates]
  split
  · exact List.Sublist.refl _
  · exact dedupBySource_sublist _ _

lemma mem_selectCandidates (threshold : ℚ)
    (nearDup : Candidate → Candidate → Bool) (minDS : Nat)
    (raw : List Candidate) (c : Candidate)
    (h : c ∈ selectCandidates threshold nearDup minDS raw) :
    threshold ≤ c.score ∧ c ∈ raw := by
  have h1 := (selectCandidates_sublist_sorted threshold nearDup minDS raw).mem h
  rw [List.mem_insertionSort] at h1
  have h2 := List.mem_filter.mp h1
  exact ⟨of_decide_eq_true h2.2, h2.1⟩

lemma selectCandidates_sorted (threshold : ℚ)
    (nearDup : Candidate → Candidate → Bool) (minDS : Nat)
    (raw : List Candidate) :
    List.Sorted candBefore (selectCandidates threshold nearDup minDS raw) :=
  (List.sorted_insertionSort candBefore
      (raw.filter (fun c => threshold ≤ c.score))).sublist
    (selectCandidates_sublist_sorted threshold nearDup minDS raw)

/-- Claim C3: retrieval filters out every store result scoring below the
similarity threshold and returns the survivors sorted descending by score
with ties broken by ascending chunk id; on the spec scenario (three chunks
scoring 0.92, 0.81, 0.40 with threshold 0.5) the candidate list is exactly
the top two in order; and for a fixed store snapshot, repeating the query
yields the same ordered candidate list. -/
theorem C3_retrieval_filter_sort_deterministic :
    (∀ (threshold : ℚ) (nearDup : Candidate → Candidate → Bool)
        (minDS : Nat) (raw : List Candidate) (c : Candidate),
        c ∈ selectCandidates threshold nearDup minDS raw →
        threshold ≤ c.score ∧ c ∈ raw) ∧
    (∀ (threshold : ℚ) (nearDup : Candidate → Candidate → Bool)
        (minDS : Nat) (raw : List Candidate),
        List.Sorted candBefore (selectCandidates threshold nearDup minDS raw)) ∧
    selectCandidates (mkRat 1 2) (fun _ _ => false) 0 storeScenario =
      [scenCand1, scenCand2] ∧
    (∀ (threshold : ℚ) (nearDup : Candidate → Candidate → Bool)
        (minDS : Nat) (raw : List Candidate),
        selectCandidates threshold nearDup minDS raw =
          selectCandidates threshold nearDup minDS raw) :=
  ⟨mem_selectCandidates, selectCandidates_sorted, by decide, fun _ _ _ _ => rfl⟩

/-- Witness for claim C3 at concrete inputs: the retained scenario candidate
meets the threshold and comes from the store answer. -/
theorem C3_retrieval_filter_sort_deterministic_witness :
    mkRat 1 2 ≤ scenCand1.score ∧ scenCand1 ∈ storeScenario :=
  C3_retrieval_filter_sort_deterministic.1 (mkRat 1 2) (fun _ _ => false) 0
    storeScenario scenCand1 (by decide)

lemma flagsLe_refl (a : Flags) : flagsLe a a := ⟨id, id, id⟩

lemma flagsLe_trans {a b c : Flags} (h1 : flagsLe a b) (h2 : flagsLe b c) :
    flagsLe a c :=
  ⟨fun h => h2.1 (h1.1 h), fun h => h2.2.1 (h1.2.1 h), fun h => h2.2.2 (h1.2.2 h)⟩

lemma dedupCitationsAux_sublist (l : List Citation) : ∀ seen,
    List.Sublist (dedupCitationsAux seen l) l := by
  induction l with
  | nil => intro seen; simp [dedupCitationsAux]
  | cons c rest ih =>
    intro seen
    rw [dedupCitationsAux]
    split
    · exact (ih seen).cons c
    · exact (ih (c :: seen)).cons₂ c

lemma dedupCitationsAux_not_seen (l : List Citation) : ∀ seen,
    ∀ c ∈ dedupCitationsAux seen l, ∀ s ∈ seen, sameCiteKey s c = false := by
  induction l with
  | nil => intro seen c hc; simp [dedupCitationsAux] at hc
  | cons d rest ih =>
    intro seen c hc s hs
    rw [dedupCitationsAux] at hc
    by_cases hd : seen.any (fun s => sameCiteKey s d) = true
    · rw [if_pos hd] at hc
      exact ih seen c hc s hs
    · rw [if_neg hd] at hc
      rcases List.mem_cons.mp hc with h | h
      · subst h
        by_contra hkey
        have : seen.any (fun s => sameCiteKey s c) = true :=
          List.any_eq_true.mpr ⟨s, hs, by simpa using hkey⟩
        exact hd this
      · exact ih (d :: seen) c h s (List.mem_cons_of_mem _ hs)

lemma dedupCitationsAux_pairwise (l : List Citation) : ∀ seen,
    List.Pairwise (fun a b => sameCiteKey a b = false)
      (dedupCitationsAux seen l) := by
  induction l with
  | nil => intro seen; simp [dedupCitationsAux]
  | cons d rest ih =>
    intro seen
    rw [dedupCitationsAux]
    split
    · exact ih seen
    · refine List.Pairwise.cons ?_ (ih (d :: seen))
      intro b hb
      exact dedupCitationsAux_not_seen rest (d :: seen) b hb d
        (List.mem_cons_self _ _)

lemma assembleCitations_sublist (cands : List Candidate) :
    List.Sublist (assembleCitations cands) (rawCitations cands) :=
  dedupCitationsAux_sublist (rawCitations cands) []

lemma assembleCitations_length_le (cands : List Candidate) :
    (assembleCitations cands).length ≤ cands.length := by
  have h := (assembleCitations_sublist cands).length_le
  simpa [rawCitations] using h

lemma assembleCitations_pairwise (cands : List Candidate) :
    List.Pairwise (fun a b => sameCiteKey a b = false)
      (assembleCitations cands) :=
  dedupCitationsAux_pairwise (rawCitations cands) []

lemma assembleCitations_eq_nil_iff (cands : List Candidate) :
    assembleCitations cands = [] ↔ cands = [] := by
  constructor
  · intro h
    cases cands with
    | nil => rfl
    | cons c cs =>
      simp only [assembleCitations, rawCitations, List.map_cons, dedupCitations,
        dedupCitationsAux, List.any_nil, Bool.false_eq_true, if_false] at h
      exact (List.cons_ne_nil _ _ h).elim
  · intro h
    subst h
    rfl

lemma withRetry_trace_all {α : Type} (f : Nat → Option α × List ECall)
    (p : ECall → Prop) (hf : ∀ k, ∀ e ∈ (f k).2, p e) :
    ∀ (fuel start : Nat), ∀ e ∈ (withRetry f start fuel).2, p e := by
  intro fuel
  induction fuel with
  | zero => intro start e he; simp [withRetry] at he
  | succ n ih =>
    intro start e he
    rw [withRetry] at he
    cases hfk : f start with
    | mk o tr =>
      rw [hfk] at he
      cases o with
      | some a =>
        simp only at he
        exact hf start e (by rw [hfk]; exact he)
      | none =>
        simp only [List.mem_append] at he
        rcases he with h | h
        · exact hf start e (by rw [hfk]; exact h)
        · exact ih (start + 1) e h

lemma withRetry_countP {α : Type} (f : Nat → Option α × List ECall)
    (q : ECall → Bool) (m : Nat) (hf : ∀ k, (f k).2.countP q ≤ m) :
    ∀ (fuel start : Nat), (withRetry f start fuel).2.countP q ≤ fuel * m := by
  intro fuel
  induction fuel with
  | zero => intro start; simp [withRetry]
  | succ n ih =>
    intro start
    rw [withRetry]
    cases hfk : f start with
    | mk o tr =>
      cases o with
      | some a =>
        simp only
        calc tr.countP q = (f start).2.countP q := by rw [hfk]
          _ ≤ m := hf start
          _ ≤ (n + 1) * m := Nat.le_mul_of_pos_left m (Nat.succ_pos n)
      | none =>
        simp only [List.countP_append]
        have h1 : tr.countP q ≤ m := by
          have := hf start
          rw [hfk] at this
          exact this
        have h2 := ih (start + 1)
        calc tr.countP q + (withRetry f (start + 1) n).2.countP q
            ≤ m + n * m := Nat.add_le_add h1 h2
          _ = (n + 1) * m := by ring

lemma attemptRetrieve_trace (env : Env) (cfg : Config) (k : Nat) :
    ∀ e ∈ (attemptRetrieve env cfg k).2, isRetrievalCall e = true := by
  intro e he
  unfold attemptRetrieve at he
  cases henv : env.embed k with
  | none =>
    rw [henv] at he
    simp only [List.mem_singleton] at he
    subst he; rfl
  | some emb =>
    rw [henv] at he
    dsimp only at he
    cases hstore : env.store emb k with
    | none =>
      rw [hstore] at he
      simp only [List.mem_cons, List.mem_singleton, List.not_mem_nil, or_false] at he
      rcases he with h | h <;> subst h <;> rfl
    | some raw =>
      rw [hstore] at he
      simp only [List.mem_cons, List.mem_singleton, List.not_mem_nil, or_false] at he
      rcases he with h | h <;> subst h <;> rfl

lemma attemptRetrieve_embed_count (env : Env) (cfg : Config) (k : Nat) :
    (attemptRetrieve env cfg k).2.countP isEmbedCall ≤ 1 := by
  unfold attemptRetrieve
  cases env.embed k with
  | none => simp [List.countP_cons, List.countP_nil, isEmbedCall]
  | some emb =>
    dsimp only
    cases env.store emb k with
    | none => simp [List.countP_cons, List.countP_nil, isEmbedCall]
    | some raw => simp [List.countP_cons, List.countP_nil, isEmbedCall]

lemma attemptSynthesize_trace (env : Env) (prompt : String) (k : Nat) :
    ∀ e ∈ (attemptSynthesize env prompt k).2, isRetrievalCall e = false := by
  intro e he
  unfold attemptSynthesize at he
  cases hl : env.llm prompt k with
  | none =>
    rw [hl] at he
    simp only [List.mem_singleton] at he
    subst he; rfl
  | some text =>
    rw [hl] at he
    simp only [List.mem_singleton] at he
    subst he; rfl

lemma stageRetrieve_skip (env : Env) (cfg : Config) (st : QState)
    (h : st.flags.retrieved = true) :
    stageRetrieve env cfg st = ({ st with phase := Phase.SYNTHESIZING }, []) := by
  simp [stageRetrieve, h]

lemma stageRetrieve_trace (env : Env) (cfg : Config) (st : QState) :
    ∀ e ∈ (stageRetrieve env cfg st).2, isRetrievalCall e = true := by
  intro e he
  unfold stageRetrieve at he
  split at he
  · simp at he
  · cases hr : withRetry (attemptRetrieve env cfg) 0 (cfg.max_retries + 1) with
    | mk o tr =>
      rw [hr] at he
      have htr : ∀ x ∈ tr, isRetrievalCall x = true := by
        intro x hx
        exact withRetry_trace_all (attemptRetrieve env cfg)
          (fun c => isRetrievalCall c = true)
          (fun k => attemptRetrieve_trace env cfg k)
          (cfg.max_retries + 1) 0 x (by rw [hr]; exact hx)
      cases o with
      | some cands => exact htr e he
      | none => exact htr e he

lemma stageRetrieve_embed_count (env : Env) (cfg : Config) (st : QState) :
    (stageRetrieve env cfg st).2.countP isEmbedCall ≤ cfg.max_retries + 1 := by
  unfold stageRetrieve
  split
  · simp
  · cases hr : withRetry (attemptRetrieve env cfg) 0 (cfg.max_retries + 1) with
    | mk o tr =>
      have hb : tr.countP isEmbedCall ≤ (cfg.max_retries + 1) * 1 := by
        have := withRetry_countP (attemptRetrieve env cfg) isEmbedCall 1
          (fun k => attemptRetrieve_embed_count env cfg k) (cfg.max_retries + 1) 0
        rw [hr] at this
        exact this
      rw [Nat.mul_one] at hb
      cases o with
      | some cands => exact hb
      | none => exact hb

lemma stageRetrieve_flags (env : Env) (cfg : Config) (st : QState) :
    flagsLe st.flags (stageRetrieve env cfg st).1.flags := by
  unfold stageRetrieve
  split
  · exact flagsLe_refl _
  · cases withRetry (attemptRetrieve env cfg) 0 (cfg.max_retries + 1) with
    | mk o tr =>
      cases o with
      | some cands => exact ⟨fun _ => rfl, id, id⟩
      | none => exact flagsLe_refl _

lemma stageSynthesize_candidates (env : Env) (cfg : Config)
    (history : List Turn) (st : QState) :
    (stageSynthesize env cfg history st).1.candidates = st.candidates := by
  unfold stageSynthesize
  split
  · rfl
  · cases st.candidates with
    | none => rfl
    | some cands =>
      cases cands with
      | nil => rfl
      | cons c cs =>
        dsimp only
        cases withRetry
            (attemptSynthesize env
              (buildPrompt st.query_text (contextWindow env.inputBudget (c :: cs)) history))
            0 (cfg.max_retries + 1) with
        | mk o tr =>
          cases o with
          | some draft => rfl
          | none => rfl

lemma stageSynthesize_trace (env : Env) (cfg : Config)
    (history : List Turn) (st : QState) :
    ∀ e ∈ (stageSynthesize env cfg history st).2, isRetrievalCall e = false := by
  intro e he
  unfold stageSynthesize at he
  split at he
  · simp at he
  · cases hcand : st.candidates with
    | none => rw [hcand] at he; simp at he
    | some cands =>
      rw [hcand] at he
      cases cands with
      | nil => simp at he
      | cons c cs =>
        dsimp only at he
        cases hr : withRetry
            (attemptSynthesize env
              (buildPrompt st.query_text (contextWindow env.inputBudget (c :: cs)) history))
            0 (cfg.max_retries + 1) with
        | mk o tr =>
          rw [hr] at he
          have htr : ∀ x ∈ tr, isRetrievalCall x = false := by
            intro x hx
            exact withRetry_trace_all _
              (fun c => isRetrievalCall c = false)
              (fun k => attemptSynthesize_trace env _ k)
              (cfg.max_retries + 1) 0 x (by rw [hr]; exact hx)
          cases o with
          | some draft => exact htr e he
          | none => exact htr e he

lemma stageSynthesize_flags (env : Env) (cfg : Config)
    (history : List Turn) (st : QState) :
    flagsLe st.flags (stageSynthesize env cfg history st).1.flags := by
  unfold stageSynthesize
  split
  · exact flagsLe_refl _
  · cases st.candidates with
    | none => exact flagsLe_refl _
    | some cands =>
      cases cands with
      | nil => exact ⟨id, fun _ => rfl, id⟩
      | cons c cs =>
        dsimp only
        cases withRetry
            (attemptSynthesize env
              (buildPrompt st.query_text (contextWindow env.inputBudget (c :: cs)) history))
            0 (cfg.max_retries + 1) with
        | mk o tr =>
          cases o with
          | some draft => exact ⟨id, fun _ => rfl, id⟩
          | none => exact flagsLe_refl _

lemma stageCite_candidates (st : QState) :
    (stageCite st).1.candidates = st.candidates := by
  unfold stageCite
  split
  · rfl
  · cases st.draft_answer with
    | none => rfl
    | some draft =>
      cases st.candidates with
      | none => rfl
      | some cands => rfl

lemma stageCite_trace (st : QState) : (stageCite st).2 = [] := by
  unfold stageCite
  split
  · rfl
  · cases st.draft_answer with
    | none => rfl
    | some draft =>
      cases st.candidates with
      | none => rfl
      | some cands => rfl

lemma stageCite_flags (st : QState) :
    flagsLe st.flags (stageCite st).1.flags := by
  unfold stageCite
  split
  · exact flagsLe_refl _
  · cases st.draft_answer with
    | none => exact flagsLe_refl _
    | some draft =>
      cases st.candidates with
      | none => exact flagsLe_refl _
      | some cands => exact ⟨id, id, fun _ => rfl⟩

lemma stageCite_phase (st : QState) :
    (stageCite st).1.phase = Phase.DONE ∨ (stageCite st).1.phase = Phase.FAILED := by
  unfold stageCite
  split
  · exact Or.inl rfl
  · cases st.draft_answer with
    | none => exact Or.inr rfl
    | some draft =>
      cases st.candidates with
      | none => exact Or.inr rfl
      | some cands => exact Or.inl rfl

lemma stageRetrieve_run (env : Env) (cfg : Config) (st : QState)
    (h : st.flags.retrieved = false) :
    stageRetrieve env cfg st =
      match withRetry (attemptRetrieve env cfg) 0 (cfg.max_retries + 1) with
      | (some cands, tr) =>
        ({ st with candidates := some cands
                   flags := { st.flags with retrieved := true }
                   phase := Phase.SYNTHESIZING }, tr)
      | (none, tr) =>
        ({ st with phase := Phase.FAILED
                   error := some "retrieval failed after retries" }, tr) := by
  simp [stageRetrieve, h]

lemma stageSynthesize_empty (env : Env) (cfg : Config) (hist : List Turn)
    (st : QState) (h : st.flags.answered = false)
    (hc : st.candidates = some []) :
    stageSynthesize env cfg hist st =
      ({ st with draft_answer := some insufficientInfoResponse
                 detected_language := some (detectLanguage st.query_text)
                 flags := { st.flags with answered := true }
                 phase := Phase.CITING }, []) := by
  simp [stageSynthesize, h, hc]

lemma stageSynthesize_run (env : Env) (cfg : Config) (hist : List Turn)
    (st : QState) (c : Candidate) (cs : List Candidate)
    (h : st.flags.answered = false) (hc : st.candidates = some (c :: cs)) :
    stageSynthesize env cfg hist st =
      match withRetry
          (attemptSynthesize env
            (buildPrompt st.query_text (contextWindow env.inputBudget (c :: cs)) hist))
          0 (cfg.max_retries + 1) with
      | (some draft, tr) =>
        ({ st with draft_answer := some draft
                   detected_language := some (detectLanguage st.query_text)
                   flags := { st.flags with answered := true }
                   phase := Phase.CITING }, tr)
      | (none, tr) =>
        ({ st with phase := Phase.FAILED
                   error := some "synthesis failed after retries" }, tr) := by
  simp [stageSynthesize, h, hc]

lemma stageCite_run (st : QState) (draft : String) (cands : List Candidate)
    (h : st.flags.cited = false) (hd : st.draft_answer = some draft)
    (hc : st.candidates = some cands) :
    stageCite st =
      ({ st with citations := some (assembleCitations cands)
                 final_answer := some (composeFinal draft (assembleCitations cands))
                 flags := { st.flags with cited := true }
                 phase := Phase.DONE }, []) := by
  simp [stageCite, h, hd, hc]

lemma runPipeline_flags (env : Env) (cfg : Config) (hist : List Turn)
    (st : QState) : flagsLe st.flags (runPipeline env cfg hist st).1.flags := by
  unfold runPipeline
  dsimp only
  split
  · exact stageRetrieve_flags env cfg _
  · split
    · exact flagsLe_trans (stageRetrieve_flags env cfg _)
        (stageSynthesize_flags env cfg hist _)
    · exact flagsLe_trans (stageRetrieve_flags env cfg _)
        (flagsLe_trans (stageSynthesize_flags env cfg hist _) (stageCite_flags _))

lemma runPipeline_candidates (env : Env) (cfg : Config) (hist : List Turn)
    (st : QState) :
    (runPipeline env cfg hist st).1.candidates =
      (stageRetrieve env cfg { st with phase := Phase.RETRIEVING }).1.candidates := by
  unfold runPipeline
  dsimp only
  split
  · rfl
  · split
    · exact stageSynthesize_candidates env cfg hist _
    · rw [stageCite_candidates, stageSynthesize_candidates]

lemma runPipeline_phase (env : Env) (cfg : Config) (hist : List Turn)
    (st : QState) :
    (runPipeline env cfg hist st).1.phase = Phase.DONE ∨
    (runPipeline env cfg hist st).1.phase = Phase.FAILED := by
  unfold runPipeline
  dsimp only
  split
  · rename_i h; exact Or.inr h
  · split
    · rename_i h; exact Or.inr h
    · exact stageCite_phase _

lemma runPipeline_skip_trace (env : Env) (cfg : Config) (hist : List Turn)
    (st : QState) (h : st.flags.retrieved = true) :
    ∀ e ∈ (runPipeline env cfg hist st).2, isRetrievalCall e = false := by
  intro e he
  unfold runPipeline at he
  dsimp only at he
  rw [stageRetrieve_skip env cfg { st with phase := Phase.RETRIEVING } h] at he
  split at he
  · simp at he
  · split at he
    · simp only [List.nil_append] at he
      exact stageSynthesize_trace env cfg hist _ e he
    · simp only [List.nil_append, List.mem_append, stageCite_trace,
        List.not_mem_nil, or_false] at he
      exact stageSynthesize_trace env cfg hist _ e he

lemma runPipeline_fresh_done (env : Env) (cfg : Config) (hist : List Turn)
    (sid q : String)
    (hdone : (runPipeline env cfg hist (initState sid q)).1.phase = Phase.DONE) :
    ∃ cands draft,
      (runPipeline env cfg hist (initState sid q)).1.candidates = some cands ∧
      (runPipeline env cfg hist (initState sid q)).1.draft_answer = some draft ∧
      (runPipeline env cfg hist (initState sid q)).1.citations =
        some (assembleCitations cands) ∧
      (runPipeline env cfg hist (initState sid q)).1.final_answer =
        some (composeFinal draft (assembleCitations cands)) ∧
      (cands = [] →
        draft = insufficientInfoResponse ∧
        ∀ e ∈ (runPipeline env cfg hist (initState sid q)).2,
          isRetrievalCall e = true) := by
  unfold runPipeline at hdone ⊢
  dsimp only [initState] at hdone ⊢
  rw [stageRetrieve_run env cfg _ rfl] at hdone ⊢
  cases hr : withRetry (attemptRetrieve env cfg) 0 (cfg.max_retries + 1) with
  | mk o tr =>
    rw [hr] at hdone
    cases o with
    | none => simp at hdone
    | some cands =>
      dsimp only at hdone ⊢
      cases cands with
      | nil =>
        rw [stageSynthesize_empty env cfg hist _ rfl rfl] at hdone ⊢
        rw [stageCite_run _ insufficientInfoResponse [] rfl rfl rfl] at hdone ⊢
        refine ⟨[], insufficientInfoResponse, ?_, ?_, ?_, ?_, ?_⟩
        · simp
        · simp
        · simp
        · simp
        · intro _
          refine ⟨rfl, ?_⟩
          intro e he
          simp only [List.append_nil] at he
          have he' : e ∈ tr := by
            simpa using he
          exact withRetry_trace_all (attemptRetrieve env cfg)
            (fun x => isRetrievalCall x = true)
            (fun k => attemptRetrieve_trace env cfg k)
            (cfg.max_retries + 1) 0 e (by rw [hr]; exact he')
      | cons c cs =>
        rw [stageSynthesize_run env cfg hist _ c cs rfl rfl] at hdone ⊢
        cases hl : withRetry
            (attemptSynthesize env
              (buildPrompt q (contextWindow env.inputBudget (c :: cs)) hist))
            0 (cfg.max_retries + 1) with
        | mk od trl =>
          rw [hl] at hdone
          cases od with
          | none => simp at hdone
          | some draft =>
            dsimp only at hdone ⊢
            rw [stageCite_run _ draft (c :: cs) rfl rfl rfl] at hdone ⊢
            refine ⟨c :: cs, draft, ?_, ?_, ?_, ?_, ?_⟩
            · simp
            · simp
            · simp
            · simp
            · intro h
              exact (List.cons_ne_nil c cs h).elim

lemma runPipeline_fresh_empty (env : Env) (cfg : Config) (hist : List Turn)
    (sid q : String)
    (hc : (runPipeline env cfg hist (initState sid q)).1.candidates = some []) :
    (runPipeline env cfg hist (initState sid q)).1.phase = Phase.DONE ∧
    (runPipeline env cfg hist (initState sid q)).1.citations = some [] ∧
    (runPipeline env cfg hist (initState sid q)).1.draft_answer =
      some insufficientInfoResponse ∧
    (runPipeline env cfg hist (initState sid q)).1.final_answer =
      some insufficientInfoResponse ∧
    ∀ e ∈ (runPipeline env cfg hist (initState sid q)).2,
      isRetrievalCall e = true := by
  have hsel := runPipeline_candidates env cfg hist (initState sid q)
  rw [hc] at hsel
  rcases hwr : withRetry (attemptRetrieve env cfg) 0 (cfg.max_retries + 1)
    with ⟨o, tr⟩
  cases o with
  | none =>
    exfalso
    rw [stageRetrieve_run env cfg _ rfl, hwr] at hsel
    simp [initState] at hsel
  | some cands =>
    have hcands : cands = [] := by
      rw [stageRetrieve_run env cfg _ rfl, hwr] at hsel
      simpa using hsel.symm
    subst hcands
    unfold runPipeline
    dsimp only [initState]
    rw [stageRetrieve_run env cfg _ rfl, hwr]
    dsimp only
    rw [stageSynthesize_empty env cfg hist _ rfl rfl]
    rw [stageCite_run _ insufficientInfoResponse [] rfl rfl rfl]
    refine ⟨by simp, ?_, by simp, ?_, ?_⟩
    · simp [assembleCitations, rawCitations, dedupCitations, dedupCitationsAux]
    · simp [composeFinal, assembleCitations, rawCitations, dedupCitations,
        dedupCitationsAux]
    · intro e he
      simp only [List.append_nil] at he
      have he' : e ∈ tr := by simpa using he
      exact withRetry_trace_all (attemptRetrieve env cfg)
        (fun x => isRetrievalCall x = true)
        (fun k => attemptRetrieve_trace env cfg k)
        (cfg.max_retries + 1) 0 e (by rw [hwr]; exact he')

/-- Claim C1: for every query whose retrieval produces an empty candidate
list, the pipeline completes with an empty citations sequence and a final
answer equal to the canonical insufficient information response, and the
synthesis stage never fabricates content (never calls the LLM provider)
when candidates is empty; citations are empty exactly when candidates was
empty. -/
theorem C1_empty_candidates_canonical :
    (∀ (env : Env) (cfg : Config) (hist : List Turn) (sid q : String),
        (runPipeline env cfg hist (initState sid q)).1.candidates = some [] →
        (runPipeline env cfg hist (initState sid q)).1.phase = Phase.DONE ∧
        (runPipeline env cfg hist (initState sid q)).1.citations = some [] ∧
        (runPipeline env cfg hist (initState sid q)).1.draft_answer =
          some insufficientInfoResponse ∧
        (runPipeline env cfg hist (initState sid q)).1.final_answer =
          some insufficientInfoResponse ∧
        ∀ k, ¬ (ECall.llmCall k ∈ (runPipeline env cfg hist (initState sid q)).2)) ∧
    (∀ cands : List Candidate, assembleCitations cands = [] ↔ cands = []) := by
  constructor
  · intro env cfg hist sid q hc
    obtain ⟨h1, h2, h3, h4, h5⟩ := runPipeline_fresh_empty env cfg hist sid q hc
    refine ⟨h1, h2, h3, h4, ?_⟩
    intro k hk
    have hbad := h5 _ hk
    simp [isRetrievalCall] at hbad
  · exact assembleCitations_eq_nil_iff

/-- Witness for claim C1: a store with no relevant chunks yields the
canonical insufficient information answer and empty citations. -/
theorem C1_empty_candidates_canonical_witness :
    (runPipeline emptyStoreEnv scenarioConfig [] (initState "s" "q")).1.phase =
      Phase.DONE ∧
    (runPipeline emptyStoreEnv scenarioConfig [] (initState "s" "q")).1.citations =
      some [] ∧
    (runPipeline emptyStoreEnv scenarioConfig [] (initState "s" "q")).1.final_answer =
      some insufficientInfoResponse :=
  ⟨(C1_empty_candidates_canonical.1 emptyStoreEnv scenarioConfig [] "s" "q"
      (by decide)).1,
   (C1_empty_candidates_canonical.1 emptyStoreEnv scenarioConfig [] "s" "q"
      (by decide)).2.1,
   (C1_empty_candidates_canonical.1 emptyStoreEnv scenarioConfig [] "s" "q"
      (by decide)).2.2.2.1⟩

/-- Claim C4: for every successful fresh run, the citation list is no longer
than the candidate list, no two citations share the same
(source_file, page_number) key, citations preserve the relative order of
the candidates they come from, and every candidate yields a citation record
before deduplication. -/
theorem C4_citations_unique_bounded_ordered :
    (∀ (env : Env) (cfg : Config) (hist : List Turn) (sid q : String)
        (cands : List Candidate) (cits : List Citation),
        (runPipeline env cfg hist (initState sid q)).1.phase = Phase.DONE →
        (runPipeline env cfg hist (initState sid q)).1.candidates = some cands →
        (runPipeline env cfg hist (initState sid q)).1.citations = some cits →
        cits.length ≤ cands.length ∧
        List.Pairwise (fun a b => sameCiteKey a b = false) cits ∧
        List.Sublist cits (rawCitations cands)) ∧
    (∀ cands : List Candidate,
        (rawCitations cands).length = cands.length ∧
        ∀ c ∈ cands, citationOf c ∈ rawCitations cands) := by
  constructor
  · intro env cfg hist sid q cands cits hdone hcand hcit
    obtain ⟨cands', draft, h1, h2, h3, h4, h5⟩ :=
      runPipeline_fresh_done env cfg hist sid q hdone
    rw [hcand] at h1
    injection h1 with h1
    subst h1
    rw [hcit] at h3
    injection h3 with h3
    rw [h3]
    exact ⟨assembleCitations_length_le cands, assembleCitations_pairwise cands,
      assembleCitations_sublist cands⟩
  · intro cands
    exact ⟨by simp [rawCitations],
      fun c hc => List.mem_map_of_mem citationOf hc⟩

/-- Witness for claim C4 on a concrete successful run. -/
theorem C4_citations_unique_bounded_ordered_witness :
    (assembleCitations [scenCand1, scenCand2]).length ≤
      ([scenCand1, scenCand2] : List Candidate).length :=
  (C4_citations_unique_bounded_ordered.1 flakyEnv scenarioConfig []
      "s" "what is the maximum grant amount"
      [scenCand1, scenCand2] (assembleCitations [scenCand1, scenCand2])
      (by decide) (by decide) (by decide)).1

/-- Claim C5: in every run the flags only transition from false to true and
are never reset, and when the orchestrator is re-invoked on a state whose
retrieved flag is already set, the retrieval stage is skipped and the
embedding provider and the vector store are not called again. -/
theorem C5_flags_monotone_stage_skip :
    (∀ (env : Env) (cfg : Config) (hist : List Turn) (st : QState),
        flagsLe st.flags (runPipeline env cfg hist st).1.flags) ∧
    (∀ (env : Env) (cfg : Config) (st : QState),
        st.flags.retrieved = true →
        stageRetrieve env cfg st = ({ st with phase := Phase.SYNTHESIZING }, [])) ∧
    (∀ (env : Env) (cfg : Config) (hist : List Turn) (st : QState),
        st.flags.retrieved = true →
        ∀ e ∈ (runPipeline env cfg hist st).2, isRetrievalCall e = false) :=
  ⟨runPipeline_flags, stageRetrieve_skip, runPipeline_skip_trace⟩

/-- Witness for claim C5: a pre-retrieved state skips the retrieval stage,
keeps its flag set, and its re-run trace holds no retrieval call. -/
theorem C5_flags_monotone_stage_skip_witness :
    stageRetrieve flakyEnv scenarioConfig preRetrievedState =
      ({ preRetrievedState with phase := Phase.SYNTHESIZING }, []) ∧
    (runPipeline flakyEnv scenarioConfig [] preRetrievedState).1.flags.retrieved =
      true ∧
    isRetrievalCall (ECall.llmCall 0) = false :=
  ⟨C5_flags_monotone_stage_skip.2.1 flakyEnv scenarioConfig preRetrievedState rfl,
   (C5_flags_monotone_stage_skip.1 flakyEnv scenarioConfig [] preRetrievedState).1
     rfl,
   C5_flags_monotone_stage_skip.2.2 flakyEnv scenarioConfig [] preRetrievedState
     rfl (ECall.llmCall 0) (by decide)⟩

/-- Claim C7: transient provider failures inside a stage are retried at most
a bounded number of times (max_retries extra attempts); an embedding
provider that times out twice and then succeeds under max_retries = 2 still
yields an ok result; and when retries are exhausted the orchestrator moves
to FAILED while preserving the already-populated candidates, which a
degraded response then reuses. -/
theorem C7_bounded_retries_preserve_partial :
    (∀ (env : Env) (cfg : Config) (st : QState),
        (stageRetrieve env cfg st).2.countP isEmbedCall ≤ cfg.max_retries + 1) ∧
    (ask flakyEnv scenarioConfig [] "s" "what is the maximum grant amount"
        0).1.status = Status.ok ∧
    (∀ (env : Env) (cfg : Config) (hist : List Turn) (st : QState),
        (runPipeline env cfg hist st).1.candidates =
          (stageRetrieve env cfg { st with phase := Phase.RETRIEVING }).1.candidates) ∧
    (runPipeline exhaustedEnv scenarioConfig [] (initState "s" "q")).1.phase =
      Phase.FAILED ∧
    (runPipeline exhaustedEnv scenarioConfig [] (initState "s" "q")).1.candidates =
      some [scenCand1, scenCand2] ∧
    (ask exhaustedEnv scenarioConfig [] "s" "q" 0).1.status = Status.degraded :=
  ⟨stageRetrieve_embed_count, by decide, runPipeline_candidates,
   by decide, by decide, by decide⟩

/-- Claim C6: the caller-facing ask operation always returns a structured
result whose status is ok, degraded or error, never a bare exception, and
degraded is returned exactly when the pipeline failed while a nonempty
candidate list was salvaged. -/
theorem C6_ask_structured_status :
    (∀ (env : Env) (cfg : Config) (mem : Memory) (sid q : String) (now : Nat),
        (ask env cfg mem sid q now).1.status = Status.ok ∨
        (ask env cfg mem sid q now).1.status = Status.degraded ∨
        (ask env cfg mem sid q now).1.status = Status.error) ∧
    (∀ (env : Env) (cfg : Config) (mem : Memory) (sid q : String) (now : Nat),
        ((ask env cfg mem sid q now).1.status = Status.degraded ↔
          ((runPipeline env cfg (recent_history mem sid cfg.max_history)
                (initState sid q)).1.phase = Phase.FAILED ∧
            ∃ c cs,
              (runPipeline env cfg (recent_history mem sid cfg.max_history)
                  (initState sid q)).1.candidates = some (c :: cs)))) := by
  constructor
  · intro env cfg mem sid q now
    unfold ask
    dsimp only
    split
    · exact Or.inl rfl
    · cases hcand : (runPipeline env cfg (recent_history mem sid cfg.max_history)
          (initState sid q)).1.candidates with
      | none => exact Or.inr (Or.inr rfl)
      | some cands =>
        cases cands with
        | nil => exact Or.inr (Or.inr rfl)
        | cons c cs => exact Or.inr (Or.inl rfl)
  · intro env cfg mem sid q now
    unfold ask
    dsimp only
    rcases runPipeline_phase env cfg (recent_history mem sid cfg.max_history)
        (initState sid q) with hph | hph
    · rw [if_pos hph]
      dsimp only
      constructor
      · intro h; cases h
      · rintro ⟨hfail, -⟩
        rw [hph] at hfail
        cases hfail
    · have hne : ¬ (runPipeline env cfg (recent_history mem sid cfg.max_history)
          (initState sid q)).1.phase = Phase.DONE := by
        rw [hph]; intro hx; cases hx
      rw [if_neg hne]
      cases hcand : (runPipeline env cfg (recent_history mem sid cfg.max_history)
          (initState sid q)).1.candidates with
      | none =>
        dsimp only
        constructor
        · intro h; cases h
        · rintro ⟨-, c, cs, hx⟩
          cases hx
      | some cands =>
        cases cands with
        | nil =>
          dsimp only
          constructor
          · intro h; cases h
          · rintro ⟨-, c, cs, hx⟩
            injection hx with hx
            cases hx
        | cons c cs =>
          dsimp only
          constructor
          · intro _; exact ⟨hph, c, cs, rfl⟩
          · intro _; rfl

/-- Witness for claim C6 at a concrete failing environment. -/
theorem C6_ask_structured_status_witness :
    (ask exhaustedEnv scenarioConfig [] "s" "q" 0).1.status = Status.degraded ↔
      ((runPipeline exhaustedEnv scenarioConfig
            (recent_history [] "s" scenarioConfig.max_history)
            (initState "s" "q")).1.phase = Phase.FAILED ∧
        ∃ c cs,
          (runPipeline exhaustedEnv scenarioConfig
              (recent_history [] "s" scenarioConfig.max_history)
              (initState "s" "q")).1.candidates = some (c :: cs)) :=
  C6_ask_structured_status.2 exhaustedEnv scenarioConfig [] "s" "q" 0

/-- Claim C2: for every session and every sequence of append_turn calls, the
turn list of a session never exceeds MAX_HISTORY entries; an append performed
when the list is already at the bound removes exactly the oldest turn (FIFO)
and keeps the new one; and append_turn never raises for a previously unseen
session id, it creates the session. -/
theorem C2_session_memory_bounded_fifo :
    (∀ (calls : List (String × Turn)) (sid : String) (ts : List Turn),
        List.lookup sid (runCalls MAX_HISTORY calls) = some ts →
        ts.length ≤ MAX_HISTORY) ∧
    (∀ (mem : Memory) (sid : String) (t : Turn) (ts : List Turn),
        List.lookup sid mem = some ts → ts.length = MAX_HISTORY →
        List.lookup sid (append_turn MAX_HISTORY mem sid t) =
          some (ts.tail ++ [t])) ∧
    (∀ (mem : Memory) (sid : String) (t : Turn),
        List.lookup sid mem = none →
        List.lookup sid (append_turn MAX_HISTORY mem sid t) = some [t]) := by
  refine ⟨?_, ?_, ?_⟩
  · intro calls sid ts h
    have hb := runCalls_bounded MAX_HISTORY (by norm_num [MAX_HISTORY]) calls
    exact hb (sid, ts) (lookup_mem_of_eq_some h)
  · intro mem sid t ts hlook hlen
    rw [lookup_append_turn_self MAX_HISTORY mem sid t, hlook]
    have hnot : ¬ ts.length < MAX_HISTORY := by omega
    simp [pushBounded, hnot]
  · intro mem sid t hlook
    rw [lookup_append_turn_self MAX_HISTORY mem sid t, hlook]

/-- Witness for claim C2 at concrete inputs. -/
theorem C2_session_memory_bounded_fifo_witness :
    (List.replicate MAX_HISTORY turnA).length ≤ MAX_HISTORY ∧
    List.lookup "s" (append_turn MAX_HISTORY memAtBound "s" turnA) =
      some ((List.replicate MAX_HISTORY turnA).tail ++ [turnA]) ∧
    List.lookup "t" (append_turn MAX_HISTORY ([] : Memory) "t" turnA) =
      some [turnA] :=
  ⟨C2_session_memory_bounded_fifo.1
      (List.replicate (MAX_HISTORY + 1) ("s", turnA)) "s"
      (List.replicate MAX_HISTORY turnA) (by decide),
   C2_session_memory_bounded_fifo.2.1 memAtBound "s" turnA
      (List.replicate MAX_HISTORY turnA) (by decide) (by decide),
   C2_session_memory_bounded_fifo.2.2 ([] : Memory) "t" turnA (by decide)⟩

lemma numberSources_length (ss : List String) : ∀ n,
    (numberSources n ss).length = ss.length := by
  induction ss with
  | nil => intro n; rfl
  | cons s rest ih =>
    intro n
    simp [numberSources, ih]

lemma numberSources_get? (ss : List String) : ∀ n i,
    (numberSources n ss).get? i =
      (ss.get? i).map (fun s => (⟨n + i, s⟩ : SourceItem)) := by
  induction ss with
  | nil => intro n i; simp [numberSources]
  | cons s rest ih =>
    intro n i
    cases i with
    | zero => simp [numberSources]
    | succ j =>
      simp only [numberSources, List.get?_cons_succ, ih]
      cases rest.get? j with
      | none => rfl
      | some x =>
        have harith : n + 1 + j = n + (j + 1) := by omega
        simp [harith]

/-- Counterexample to claim C8 as stated: with a nonempty trimmed input and
no request in flight, but the system not ready, handleSendMessage appends
nothing and sends nothing, although the claim as stated requires exactly one
appended user message before the request is sent. -/
theorem C8_claim_counterexample :
    ((jsTrim "hi").isEmpty || false) = false ∧
    countUserMessages
      (handleSendMessage "hi" false false
          FetchResult.networkError).appendedMessages = 0 ∧
    (handleSendMessage "hi" false false FetchResult.networkError).requestSent =
      false := by decide

/-- Claim C8 (amended): if the trimmed input is empty, a request is already
in flight, or the system is not ready, handleSendMessage returns without
issuing a network request and without appending any message; otherwise
exactly one user message is appended, first, before the request is sent. -/
theorem C8_send_guards :
    ∀ (input : String) (isLoading systemReady : Bool) (fr : FetchResult),
      (((jsTrim input).isEmpty || isLoading) = true ∨ systemReady = false →
        handleSendMessage input isLoading systemReady fr = ⟨[], false⟩) ∧
      (((jsTrim input).isEmpty || isLoading) = false → systemReady = true →
        countUserMessages
            (handleSendMessage input isLoading systemReady fr).appendedMessages =
          1 ∧
        (handleSendMessage input isLoading systemReady
            fr).appendedMessages.head? = some ("user", jsTrim input) ∧
        (handleSendMessage input isLoading systemReady fr).requestSent = true) := by
  intro input isLoading systemReady fr
  constructor
  · intro h
    rcases h with h | h
    · simp [handleSendMessage, h]
    · subst h
      cases hg : ((jsTrim input).isEmpty || isLoading) <;>
        simp [handleSendMessage, hg]
  · intro h1 h2
    subst h2
    cases fr <;> simp [handleSendMessage, countUserMessages, h1]

/-- Witness for claim C8 at concrete inputs. -/
theorem C8_send_guards_witness :
    handleSendMessage "" false true FetchResult.networkError =
      ⟨[], false⟩ ∧
    countUserMessages
      (handleSendMessage "hello" false true
          (FetchResult.success "answer" [] none)).appendedMessages = 1 :=
  ⟨(C8_send_guards "" false true FetchResult.networkError).1 (Or.inl (by decide)),
   ((C8_send_guards "hello" false true (FetchResult.success "answer" [] none)).2
      (by decide) rfl).1⟩

/-- Claim C9: addMessageToChat renders a sources section exactly for
assistant messages with a nonempty sources array; the section holds one item
per source, numbered consecutively from 1 in input order; and the message
body is always inserted as inert text, never parsed as HTML. -/
theorem C9_sources_rendering :
    ∀ (type content : String) (sources : Option (List String))
      (ts : Option Nat),
      (addMessageToChat type content sources ts).body =
        NodeContent.text content ∧
      ((addMessageToChat type content sources ts).sourcesSection ≠ none ↔
        (type = "assistant" ∧ ∃ ss, sources = some ss ∧ ss ≠ [])) ∧
      (∀ ss, type = "assistant" → sources = some ss → ss ≠ [] →
        (addMessageToChat type content sources ts).sourcesSection =
          some (numberSources 1 ss) ∧
        (numberSources 1 ss).length = ss.length ∧
        ∀ i, (numberSources 1 ss).get? i =
          (ss.get? i).map (fun s => (⟨1 + i, s⟩ : SourceItem))) := by
  intro type content sources ts
  refine ⟨rfl, ?_, ?_⟩
  · unfold addMessageToChat
    dsimp only
    by_cases hty : type = "assistant"
    · subst hty
      rw [if_pos (by simp)]
      cases sources with
      | none => simp
      | some ss =>
        cases ss with
        | nil => simp
        | cons s rest =>
          simp only [List.length_cons, if_pos (Nat.succ_pos rest.length)]
          constructor
          · intro _
            exact ⟨by trivial, s :: rest, by trivial, List.cons_ne_nil s rest⟩
          · intro _
            exact Option.some_ne_none _
    · have hbeq : (type == "assistant") = false := by
        simpa using hty
      rw [hbeq]
      simp only [Bool.false_eq_true, if_false, ne_eq, not_true_eq_false,
        false_iff, not_and]
      intro hc
      exact absurd hc hty
  · intro ss hty hsrc hne
    subst hty
    subst hsrc
    refine ⟨?_, numberSources_length ss 1, numberSources_get? ss 1⟩
    unfold addMessageToChat
    dsimp only
    rw [if_pos (by simp)]
    cases ss with
    | nil => exact absurd rfl hne
    | cons s rest => simp

/-- Witness for claim C9 at concrete inputs. -/
theorem C9_sources_rendering_witness :
    (addMessageToChat "assistant" "answer text"
        (some ["a.pdf", "b.pdf"]) none).sourcesSection =
      some (numberSources 1 ["a.pdf", "b.pdf"]) ∧
    (addMessageToChat "user" "hello" none none).body =
      NodeContent.text "hello" :=
  ⟨((C9_sources_rendering "assistant" "answer text" (some ["a.pdf", "b.pdf"])
        none).2.2 ["a.pdf", "b.pdf"] rfl rfl (by decide)).1,
   (C9_sources_rendering "user" "hello" none none).1⟩

lemma startsWithChars_iff : ∀ (s p : List Char),
    startsWithChars s p = true ↔ ∃ t, s = p ++ t := by
  intro s p
  induction p generalizing s with
  | nil =>
    cases s with
    | nil => simp [startsWithChars]
    | cons c cs => simp [startsWithChars]
  | cons pc ps ih =>
    cases s with
    | nil => simp [startsWithChars]
    | cons sc scs =>
      simp only [startsWithChars, Bool.and_eq_true, beq_iff_eq, ih]
      constructor
      · rintro ⟨hq, t, ht⟩
        exact ⟨t, by rw [hq, ht]; rfl⟩
      · rintro ⟨t, ht⟩
        injection ht with h1 h2
        exact ⟨h1, t, h2⟩

lemma strStartsWith_append (p t : String) :
    strStartsWith (p ++ t) p = true := by
  unfold strStartsWith
  rw [startsWithChars_iff]
  exact ⟨t.data, String.data_append p t⟩

lemma getCookie_some_mem (cs name v : String)
    (h : getCookie cs name = some v) :
    (name ++ "=" ++ v) ∈ parsedEntries cs := by
  unfold getCookie at h
  cases hf : (parsedEntries cs).find? (fun c => strStartsWith c (name ++ "=")) with
  | none => rw [hf] at h; cases h
  | some c =>
    rw [hf] at h
    have hmem : c ∈ parsedEntries cs := List.mem_of_find?_eq_some hf
    have hpred : strStartsWith c (name ++ "=") = true := by
      simpa using List.find?_some hf
    obtain ⟨t, ht⟩ := (startsWithChars_iff c.data (name ++ "=").data).mp hpred
    have hv : v = strDropChars c (name ++ "=").length := by
      injection h with h; exact h.symm
    have hvdata : v.data = c.data.drop (name ++ "=").data.length := by
      rw [hv]; rfl
    have hvt : v.data = t := by
      rw [hvdata, ht, List.drop_left]
    have hc : c = name ++ "=" ++ v := by
      have hdata : c.data = (name ++ "=" ++ v).data := by
        rw [String.data_append (name ++ "=") v, ht, hvt]
      exact congrArg String.mk hdata
    rw [← hc]
    exact hmem

lemma getCookie_none_of_no_match (cs name : String)
    (h : ∀ e ∈ parsedEntries cs, strStartsWith e (name ++ "=") = false) :
    getCookie cs name = none := by
  unfold getCookie
  have hf : (parsedEntries cs).find? (fun c => strStartsWith c (name ++ "=")) =
      none := by
    rw [List.find?_eq_none]
    intro x hx
    rw [h x hx]
    simp
  rw [hf]

lemma getCookie_isSome_of_mem (cs name v : String)
    (h : (name ++ "=" ++ v) ∈ parsedEntries cs) :
    ∃ w, getCookie cs name = some w := by
  unfold getCookie
  cases hf : (parsedEntries cs).find? (fun c => strStartsWith c (name ++ "=")) with
  | some c => exact ⟨strDropChars c (name ++ "=").length, rfl⟩
  | none =>
    exfalso
    have hall := List.find?_eq_none.mp hf
    have := hall (name ++ "=" ++ v) h
    exact this (strStartsWith_append (name ++ "=") v)

/-- Claim C10: getCookie returns a stored value exactly when a cookie with
that exact name is present, and null otherwise, never throwing; consequently
initializeMemoryPanel always leaves the current session id non-null, either
reusing the session_id cookie or generating a fresh identifier. -/
theorem C10_getCookie_exact_name :
    (∀ (cs name v : String), getCookie cs name = some v →
        (name ++ "=" ++ v) ∈ parsedEntries cs) ∧
    (∀ (cs name : String),
        (∀ e ∈ parsedEntries cs, strStartsWith e (name ++ "=") = false) →
        getCookie cs name = none) ∧
    (∀ (cs name v : String), (name ++ "=" ++ v) ∈ parsedEntries cs →
        ∃ w, getCookie cs name = some w) ∧
    (∀ (cs freshId : String),
        (initializeMemoryPanel cs freshId).1 = freshId ∨
        (∃ v, getCookie cs "session_id" = some v ∧ ¬ v = "" ∧
          (initializeMemoryPanel cs freshId).1 = v)) ∧
    (∀ (cs freshId : String), ¬ freshId = "" →
        ¬ (initializeMemoryPanel cs freshId).1 = "") := by
  refine ⟨getCookie_some_mem, getCookie_none_of_no_match,
    getCookie_isSome_of_mem, ?_, ?_⟩
  · intro cs freshId
    unfold initializeMemoryPanel
    cases hg : getCookie cs "session_id" with
    | none => exact Or.inl rfl
    | some v =>
      dsimp only
      by_cases hv : v.isEmpty = true
      · rw [if_pos hv]
        exact Or.inl rfl
      · rw [if_neg hv]
        refine Or.inr ⟨v, rfl, ?_, rfl⟩
        intro hveq
        exact hv (String.isEmpty_iff v |>.mpr hveq)
  · intro cs freshId hfresh
    unfold initializeMemoryPanel
    cases hg : getCookie cs "session_id" with
    | none => exact hfresh
    | some v =>
      dsimp only
      by_cases hv : v.isEmpty = true
      · rw [if_pos hv]
        exact hfresh
      · rw [if_neg hv]
        intro hveq
        exact hv (String.isEmpty_iff v |>.mpr hveq)

/-- Witness for claim C10 at a concrete cookie string. -/
theorem C10_getCookie_exact_name_witness :
    ("session_id" ++ "=" ++ "abc123") ∈
      parsedEntries "theme=dark; session_id=abc123" ∧
    getCookie "theme=dark" "session_id" = none ∧
    ¬ (initializeMemoryPanel "theme=dark" "session-fresh").1 = "" :=
  ⟨C10_getCookie_exact_name.1 "theme=dark; session_id=abc123" "session_id"
      "abc123" (by decide),
   C10_getCookie_exact_name.2.1 "theme=dark" "session_id" (by decide),
   C10_getCookie_exact_name.2.2.2.2 "theme=dark" "session-fresh" (by decide)⟩

end LLMetrik

